import Mathlib

/-!
Verification of the sitemap-scan tool (src/cli.js).

The script talks to the outside world through three host facilities that are
not part of this repository: `axios.head`, `axios.get` followed by the xml2js
parse, and the WHATWG `URL` constructor.  They are modelled by an explicit
environment `Env`.  The four functions of cli.js — `findMainSitemap`,
`parseSitemap`, `getLinks` and `cliMain` — are translated as pure functions
over that environment.  Because the walk of `parseSitemap` recurses with no
guard, its embedding is indexed by a fuel bound on the recursion depth:
`none` means the walk did not complete within that depth; in the source
the depth is unbounded.  Each function additionally returns the list of
HTTP requests it performed, in order, so that statements about which
requests happen (and in what order) can be made.
-/

set_option maxHeartbeats 1000000

namespace SitemapScan

/-- An xml2js entry node (a `sitemap` or `url` element): `loc` is the list of
text values of its `loc` children.  The empty list models an absent `loc`
key (JS `undefined`), on which the source expression `entry.loc[0]` throws
a TypeError. -/
structure XEntry where
  loc : List String
  deriving Repr, DecidableEq

/-- The parsed form of a fetched XML body, as cli.js inspects it.
`sitemapindex = some es` models `result.sitemapindex && result.sitemapindex.sitemap`
being truthy with `es` the `sitemap` children; `none` models that conjunction
being falsy (no `sitemapindex` node, or one without `sitemap` children).
`urlset` is the same for `result.urlset && result.urlset.url`.  The two are
independent, as in the source. -/
structure SitemapDoc where
  sitemapindex : Option (List XEntry)
  urlset : Option (List XEntry)
  deriving Repr, DecidableEq

/-- Outcome of `axios.get` plus the xml2js parse for one URL: `failure` when
either the GET request or `parseStringPromise` throws, `doc` otherwise. -/
inductive FetchResult where
  | failure : FetchResult
  | doc : SitemapDoc → FetchResult
  deriving Repr, DecidableEq

/-- One outbound HTTP request performed by the tool. -/
inductive NetOp where
  | headReq : String → NetOp
  | getReq : String → NetOp
  deriving Repr, DecidableEq

/-- The external world: `head u` is whether `axios.head u` resolves;
`get u` is the outcome of `axios.get u` plus the XML parse; `parseOrigin s`
is `(new URL s).origin`, `none` when the URL constructor throws.  All three
model runtime and npm-library behaviour outside this repository. -/
structure Env where
  head : String → Bool
  get : String → FetchResult
  parseOrigin : String → Option String

/-- Models JS `s.startsWith(pre)` as used on the `domain` argument. -/
def jsStartsWith (pre s : String) : Bool :=
  List.isPrefixOf pre.data s.data

/-- The `baseUrl` computed by `findMainSitemap`: the domain itself when it
starts with the four characters `http`, otherwise `https://` prepended. -/
def baseUrlOf (domain : String) : String :=
  if jsStartsWith "http" domain then domain else "https://" ++ domain

/-- The fixed candidate paths probed by `findMainSitemap`, in priority order. -/
def sitemapPaths : List String :=
  ["/sitemap.xml", "/sitemap_index.xml", "/wp-sitemap.xml",
   "/sitemap-index.xml", "/sitemap.xml.gz"]

/-- The candidate loop of `findMainSitemap`: try `origin ++ p` for each `p`
in order with a HEAD request, returning the first URL whose check succeeds
(and `none` when every check fails), together with the ordered list of HEAD
requests performed.  A successful check short-circuits: nothing after it is
requested. -/
def tryPaths (env : Env) (origin : String) : List String → Option String × List NetOp
  | [] => (none, [])
  | p :: rest =>
    let u := origin ++ p
    if env.head u then (some u, [NetOp.headReq u])
    else
      let r := tryPaths env origin rest
      (r.fst, NetOp.headReq u :: r.snd)

/-- `findMainSitemap` of cli.js: normalise the domain to `baseUrl`, take its
origin (`Except.error` models the URL-constructor exception escaping the
function, i.e. the returned promise rejecting), then probe the candidate
paths.  `Except.ok none` is the source's `null` (no sitemap found).  The
second component is the ordered request log. -/
def findMainSitemap (env : Env) (domain : String) :
    Except Unit (Option String) × List NetOp :=
  match env.parseOrigin (baseUrlOf domain) with
  | none => (Except.error (), [])
  | some origin =>
    let r := tryPaths env origin sitemapPaths
    (Except.ok r.fst, r.snd)

/-- The source expression `entries.map(entry => entry.loc[0])`: `none` models
the TypeError thrown when some entry has no `loc` (which the surrounding
`catch` then swallows). -/
def mapLocs : List XEntry → Option (List String)
  | [] => some []
  | e :: es =>
    match e.loc.head? with
    | none => none
    | some l =>
      match mapLocs es with
      | none => none
      | some ls => some (l :: ls)

/-- The `urlset` branch at the end of the `try` block of `parseSitemap`,
given the accumulators built so far: when a `urlset` with `url` children is
present and every child has a `loc`, append the extracted values to the
content-URL accumulator; a missing `loc` throws into the `catch`, leaving
the accumulators as they stand. -/
def urlsetStep (d : SitemapDoc) (subs urls : List String) : List String × List String :=
  match d.urlset with
  | none => (subs, urls)
  | some es =>
    match mapLocs es with
    | none => (subs, urls)
    | some ls => (subs, urls ++ ls)

/-- The sequential `for (const location of sitemapLocations)` loop of
`parseSitemap`: walk each child in order with `f`, concatenating the
returned sub-sitemap lists, content-URL lists and request logs.  A child
whose walk does not complete (`none`) makes the whole loop incomplete,
matching the sequential await in the source. -/
def walkChildren (f : String → Option ((List String × List String) × List NetOp)) :
    List String → Option ((List String × List String) × List NetOp)
  | [] => some (([], []), [])
  | loc :: rest =>
    match f loc with
    | none => none
    | some ((s1, c1), l1) =>
      match walkChildren f rest with
      | none => none
      | some ((s2, c2), l2) => some ((s1 ++ s2, c1 ++ c2), l1 ++ l2)

/-- `parseSitemap` of cli.js, indexed by the available recursion depth
(`none` = the walk does not complete within that depth; the source has no
such bound).  A fetch or parse failure is caught by the `catch` and yields
the empty accumulators; an index node records its children and then walks
each one sequentially, its own entries preceding the children's collected
entries; a `urlset` node appends its extracted values.  The second
component is the ordered log of GET requests. -/
def parseSitemap (env : Env) : Nat → String → Option ((List String × List String) × List NetOp)
  | 0, _ => none
  | fuel + 1, url =>
    match env.get url with
    | FetchResult.failure => some (([], []), [NetOp.getReq url])
    | FetchResult.doc d =>
      match d.sitemapindex with
      | none => some (urlsetStep d [] [], [NetOp.getReq url])
      | some entries =>
        match mapLocs entries with
        | none => some (([], []), [NetOp.getReq url])
        | some locs =>
          match walkChildren (parseSitemap env fuel) locs with
          | none => none
          | some ((cs, cc), clog) =>
            some (urlsetStep d (locs ++ cs) cc, NetOp.getReq url :: clog)

/-- `getLinks` of cli.js: locate the main sitemap; on `null` return `[]`
without any GET request; otherwise walk it and return only the content-URL
list.  A rejection from `findMainSitemap` propagates (`Except.error`). -/
def getLinks (env : Env) (fuel : Nat) (domain : String) :
    Option (Except Unit (List String) × List NetOp) :=
  match findMainSitemap env domain with
  | (Except.error _, log) => some (Except.error (), log)
  | (Except.ok none, log) => some (Except.ok [], log)
  | (Except.ok (some url), log) =>
    match parseSitemap env fuel url with
    | none => none
    | some ((_, contentUrls), plog) => some (Except.ok contentUrls, log ++ plog)

/-- JS truthiness of `process.argv[k]` as tested by `cliMain`: absent
(`undefined`) or the empty string are falsy. -/
def truthy : Option String → Bool
  | none => false
  | some s => !(s == "")

/-- Observable outcome of one `cliMain` run.  `usageError`, `exitNotFound`
and `invalidArg` are the three `process.exit(1)` paths; `crash` models a
thrown error reaching the final `.catch(console.error)`. -/
inductive CliOutcome where
  | usageError : CliOutcome
  | exitNotFound : CliOutcome
  | crash : CliOutcome
  | mainOut : String → CliOutcome
  | subsOut : List String → CliOutcome
  | urlsOut : List String → CliOutcome
  | invalidArg : CliOutcome
  deriving Repr, DecidableEq

/-- `cliMain` of cli.js on `process.argv[2]` and `process.argv[3]`, paired
with the ordered log of network requests performed before the outcome. -/
def cliMain (env : Env) (fuel : Nat) (domainArg argArg : Option String) :
    Option (CliOutcome × List NetOp) :=
  if !truthy domainArg || !truthy argArg then
    some (CliOutcome.usageError, [])
  else
    let domain := domainArg.getD ""
    let argument := argArg.getD ""
    match findMainSitemap env domain with
    | (Except.error _, log) => some (CliOutcome.crash, log)
    | (Except.ok none, log) => some (CliOutcome.exitNotFound, log)
    | (Except.ok (some mainUrl), log) =>
      if argument == "--main" then some (CliOutcome.mainOut mainUrl, log)
      else
        match parseSitemap env fuel mainUrl with
        | none => none
        | some (r, plog) =>
          if argument == "--subs" then some (CliOutcome.subsOut r.fst, log ++ plog)
          else if argument == "--urls" then some (CliOutcome.urlsOut r.snd, log ++ plog)
          else some (CliOutcome.invalidArg, log ++ plog)

/-- The walk on `env` starting at `url` completes within some recursion
depth.  In the unbounded source this is exactly "the returned promise ever
settles". -/
def walkTerminates (env : Env) (url : String) : Prop :=
  ∃ fuel, (parseSitemap env fuel url).isSome = true

/-- The spec phrase "begins with an HTTP(S) scheme", written from the spec's
words for comparison with the code's `startsWith('http')` test. -/
def beginsWithHttpScheme (s : String) : Bool :=
  jsStartsWith "http://" s || jsStartsWith "https://" s

theorem mapLocs_length : ∀ {es : List XEntry} {ls : List String},
    mapLocs es = some ls → ls.length = es.length
  | [], _, h => by simp [mapLocs] at h; simp [← h]
  | e :: es, ls, h => by
    rcases he : e.loc.head? with _ | l <;> rw [mapLocs, he] at h
    · exact absurd h (by simp)
    · rcases hr : mapLocs es with _ | ls' <;> rw [hr] at h
      · exact absurd h (by simp)
      · cases h
        simp [mapLocs_length hr]

theorem tryPaths_all_fail (env : Env) (origin : String) :
    ∀ l : List String, (∀ p ∈ l, env.head (origin ++ p) = false) →
      tryPaths env origin l = (none, l.map fun p => NetOp.headReq (origin ++ p))
  | [], _ => rfl
  | p :: rest, h => by
    have hp := h p (List.mem_cons_self p rest)
    have hr := tryPaths_all_fail env origin rest fun q hq => h q (List.mem_cons_of_mem p hq)
    simp [tryPaths, hp, hr]

theorem tryPaths_log_mem (env : Env) (origin : String) :
    ∀ (l : List String) (op : NetOp), op ∈ (tryPaths env origin l).snd →
      ∃ p, p ∈ l ∧ op = NetOp.headReq (origin ++ p)
  | [], op, h => absurd h (by simp [tryPaths])
  | p :: rest, op, h => by
    by_cases hp : env.head (origin ++ p) = true
    · simp [tryPaths, hp] at h
      exact ⟨p, List.mem_cons_self p rest, h⟩
    · simp [tryPaths, hp] at h
      rcases h with h | h
      · exact ⟨p, List.mem_cons_self p rest, h⟩
      · rcases tryPaths_log_mem env origin rest op h with ⟨q, hq, rfl⟩
        exact ⟨q, List.mem_cons_of_mem p hq, rfl⟩

/-- Claim C1: when the origin has exactly one reachable candidate among the
five fixed paths, `findMainSitemap` returns `origin ++ p` for that candidate
`p`, and the HEAD requests performed are exactly those for the candidates up
to and including `p` in list order — no later candidate is ever checked. -/
theorem findMainSitemap_single_reachable (env : Env) (domain origin p : String)
    (ho : env.parseOrigin (baseUrlOf domain) = some origin)
    (hp : p ∈ sitemapPaths)
    (hone : ∀ q ∈ sitemapPaths, env.head (origin ++ q) = (q == p)) :
    (findMainSitemap env domain).fst = Except.ok (some (origin ++ p)) ∧
    (findMainSitemap env domain).snd =
      (sitemapPaths.takeWhile (fun q => !(q == p)) ++ [p]).map
        fun q => NetOp.headReq (origin ++ q) := by
  have h1 := hone "/sitemap.xml" (by simp [sitemapPaths])
  have h2 := hone "/sitemap_index.xml" (by simp [sitemapPaths])
  have h3 := hone "/wp-sitemap.xml" (by simp [sitemapPaths])
  have h4 := hone "/sitemap-index.xml" (by simp [sitemapPaths])
  have h5 := hone "/sitemap.xml.gz" (by simp [sitemapPaths])
  simp only [sitemapPaths, List.mem_cons, List.not_mem_nil, or_false] at hp
  rcases hp with rfl | rfl | rfl | rfl | rfl <;>
    simp_all [findMainSitemap, ho, tryPaths, sitemapPaths]

def envC1 : Env :=
  { head := fun u => u == "https://example.com/sitemap_index.xml"
    get := fun _ => FetchResult.failure
    parseOrigin := fun s =>
      if s == "https://example.com" then some "https://example.com" else none }

theorem findMainSitemap_single_reachable_witness :
    (findMainSitemap envC1 "example.com").fst =
      Except.ok (some ("https://example.com" ++ "/sitemap_index.xml")) ∧
    (findMainSitemap envC1 "example.com").snd =
      (sitemapPaths.takeWhile (fun q => !(q == "/sitemap_index.xml")) ++
        ["/sitemap_index.xml"]).map
        fun q => NetOp.headReq ("https://example.com" ++ q) :=
  findMainSitemap_single_reachable envC1 "example.com" "https://example.com"
    "/sitemap_index.xml" (by rfl) (by decide) (by decide)

/-- Claim C5: a urlset document with entries `es` whose extracted `loc`
values are `ls` yields exactly `ls` as content URLs — one value per entry,
in document order, with no deduplication — and an empty sub-sitemap list. -/
theorem parseSitemap_urlset (env : Env) (fuel : Nat) (url : String)
    (es : List XEntry) (ls : List String)
    (h : env.get url = FetchResult.doc ⟨none, some es⟩)
    (hls : mapLocs es = some ls) :
    parseSitemap env (fuel + 1) url = some (([], ls), [NetOp.getReq url]) ∧
    ls.length = es.length := by
  refine ⟨?_, mapLocs_length hls⟩
  simp [parseSitemap, h, urlsetStep, hls]

def envC5 : Env :=
  { head := fun _ => false
    get := fun u =>
      if u == "https://e.com/s.xml" then
        FetchResult.doc ⟨none, some [⟨["https://e.com/p1"]⟩, ⟨["https://e.com/p2"]⟩,
          ⟨["https://e.com/p1"]⟩]⟩
      else FetchResult.failure
    parseOrigin := fun _ => none }

theorem parseSitemap_urlset_witness :
    parseSitemap envC5 (0 + 1) "https://e.com/s.xml" =
      some (([], ["https://e.com/p1", "https://e.com/p2", "https://e.com/p1"]),
        [NetOp.getReq "https://e.com/s.xml"]) ∧
    (["https://e.com/p1", "https://e.com/p2", "https://e.com/p1"] : List String).length =
      ([⟨["https://e.com/p1"]⟩, ⟨["https://e.com/p2"]⟩,
        ⟨["https://e.com/p1"]⟩] : List XEntry).length :=
  parseSitemap_urlset envC5 0 "https://e.com/s.xml" _ _ (by rfl) (by rfl)

/-- Claim C2: a fetch or parse failure at one sitemap node is caught at that
node — the failed branch contributes empty sub-sitemap and content lists —
and a sibling referenced by the same index is still fetched and contributes
its URLs: the walk of an index whose first child `bad` fails and whose
second child `good` is a urlset still records both children and returns
`good`'s content URLs. -/
theorem parseSitemap_failed_child_isolated (env : Env) (fuel : Nat)
    (root bad good : String) (es : List XEntry) (ls : List String)
    (hroot : env.get root = FetchResult.doc ⟨some [⟨[bad]⟩, ⟨[good]⟩], none⟩)
    (hbad : env.get bad = FetchResult.failure)
    (hgood : env.get good = FetchResult.doc ⟨none, some es⟩)
    (hls : mapLocs es = some ls) :
    parseSitemap env (fuel + 1) bad = some (([], []), [NetOp.getReq bad]) ∧
    parseSitemap env (fuel + 2) root =
      some (([bad, good], ls),
        [NetOp.getReq root, NetOp.getReq bad, NetOp.getReq good]) := by
  constructor
  · simp [parseSitemap, hbad]
  · simp [parseSitemap, hroot, hbad, hgood, hls, mapLocs, walkChildren, urlsetStep]

def envC2 : Env :=
  { head := fun _ => false
    get := fun u =>
      if u == "https://e.com/idx.xml" then
        FetchResult.doc
          ⟨some [⟨["https://e.com/bad.xml"]⟩, ⟨["https://e.com/good.xml"]⟩], none⟩
      else if u == "https://e.com/good.xml" then
        FetchResult.doc ⟨none, some [⟨["https://e.com/g1"]⟩, ⟨["https://e.com/g2"]⟩]⟩
      else FetchResult.failure
    parseOrigin := fun _ => none }

theorem parseSitemap_failed_child_isolated_witness :
    parseSitemap envC2 (0 + 1) "https://e.com/bad.xml" =
      some (([], []), [NetOp.getReq "https://e.com/bad.xml"]) ∧
    parseSitemap envC2 (0 + 2) "https://e.com/idx.xml" =
      some ((["https://e.com/bad.xml", "https://e.com/good.xml"],
             ["https://e.com/g1", "https://e.com/g2"]),
        [NetOp.getReq "https://e.com/idx.xml", NetOp.getReq "https://e.com/bad.xml",
         NetOp.getReq "https://e.com/good.xml"]) :=
  parseSitemap_failed_child_isolated envC2 0 "https://e.com/idx.xml"
    "https://e.com/bad.xml" "https://e.com/good.xml" _ _
    (by rfl) (by rfl) (by rfl) (by rfl)

/-- Claim C4: for an index referencing A then B, A a urlset with two URLs
and B a urlset with three, the walk returns sub-sitemaps `[A, B]` and
content URLs `[a1, a2, b1, b2, b3]` — document order within a node; and for
a nested index (root referencing A2, A2 an index referencing C2) the
parent's own entry A2 precedes the child-collected entry C2 in the
sub-sitemap result. -/
theorem parseSitemap_order (env env2 : Env) (fuel : Nat)
    (root A B a1 a2 b1 b2 b3 : String)
    (hroot : env.get root = FetchResult.doc ⟨some [⟨[A]⟩, ⟨[B]⟩], none⟩)
    (hA : env.get A = FetchResult.doc ⟨none, some [⟨[a1]⟩, ⟨[a2]⟩]⟩)
    (hB : env.get B = FetchResult.doc ⟨none, some [⟨[b1]⟩, ⟨[b2]⟩, ⟨[b3]⟩]⟩)
    (root2 A2 C2 c1 : String)
    (hroot2 : env2.get root2 = FetchResult.doc ⟨some [⟨[A2]⟩], none⟩)
    (hA2 : env2.get A2 = FetchResult.doc ⟨some [⟨[C2]⟩], none⟩)
    (hC2 : env2.get C2 = FetchResult.doc ⟨none, some [⟨[c1]⟩]⟩) :
    (parseSitemap env (fuel + 2) root).map Prod.fst =
      some (([A, B], [a1, a2, b1, b2, b3])) ∧
    (parseSitemap env2 (fuel + 3) root2).map Prod.fst =
      some (([A2, C2], [c1])) := by
  constructor
  · simp [parseSitemap, hroot, hA, hB, mapLocs, walkChildren, urlsetStep]
  · simp [parseSitemap, hroot2, hA2, hC2, mapLocs, walkChildren, urlsetStep]

def envC4 : Env :=
  { head := fun _ => false
    get := fun u =>
      if u == "https://e.com/root.xml" then
        FetchResult.doc ⟨some [⟨["https://e.com/A.xml"]⟩, ⟨["https://e.com/B.xml"]⟩], none⟩
      else if u == "https://e.com/A.xml" then
        FetchResult.doc ⟨none, some [⟨["https://e.com/a1"]⟩, ⟨["https://e.com/a2"]⟩]⟩
      else if u == "https://e.com/B.xml" then
        FetchResult.doc ⟨none, some [⟨["https://e.com/b1"]⟩, ⟨["https://e.com/b2"]⟩,
          ⟨["https://e.com/b3"]⟩]⟩
      else FetchResult.failure
    parseOrigin := fun _ => none }

def envC4n : Env :=
  { head := fun _ => false
    get := fun u =>
      if u == "https://n.com/root.xml" then
        FetchResult.doc ⟨some [⟨["https://n.com/A.xml"]⟩], none⟩
      else if u == "https://n.com/A.xml" then
        FetchResult.doc ⟨some [⟨["https://n.com/C.xml"]⟩], none⟩
      else if u == "https://n.com/C.xml" then
        FetchResult.doc ⟨none, some [⟨["https://n.com/c1"]⟩]⟩
      else FetchResult.failure
    parseOrigin := fun _ => none }

theorem parseSitemap_order_witness :
    (parseSitemap envC4 (0 + 2) "https://e.com/root.xml").map Prod.fst =
      some ((["https://e.com/A.xml", "https://e.com/B.xml"],
             ["https://e.com/a1", "https://e.com/a2", "https://e.com/b1",
              "https://e.com/b2", "https://e.com/b3"])) ∧
    (parseSitemap envC4n (0 + 3) "https://n.com/root.xml").map Prod.fst =
      some ((["https://n.com/A.xml", "https://n.com/C.xml"], ["https://n.com/c1"])) :=
  parseSitemap_order envC4 envC4n 0 "https://e.com/root.xml"
    "https://e.com/A.xml" "https://e.com/B.xml"
    "https://e.com/a1" "https://e.com/a2" "https://e.com/b1" "https://e.com/b2"
    "https://e.com/b3" (by rfl) (by rfl) (by rfl)
    "https://n.com/root.xml" "https://n.com/A.xml" "https://n.com/C.xml"
    "https://n.com/c1" (by rfl) (by rfl) (by rfl)

/-- Claim C10: `parseSitemap` never rejects — every error raised inside the
body is caught by the surrounding handler, so each of the failure modes at a
node (network or parse failure; a document matching neither recognized
shape; a missing `loc` in an index or urlset entry) resolves normally with a
sub-sitemap list and a content-URL list, here the empty ones. -/
theorem parseSitemap_resolves (env : Env) (fuel : Nat) (url : String) (d : SitemapDoc) :
    (env.get url = FetchResult.failure →
      parseSitemap env (fuel + 1) url = some (([], []), [NetOp.getReq url])) ∧
    (env.get url = FetchResult.doc d → d.sitemapindex = none → d.urlset = none →
      parseSitemap env (fuel + 1) url = some (([], []), [NetOp.getReq url])) ∧
    (env.get url = FetchResult.doc d → ∀ es, d.sitemapindex = some es →
      mapLocs es = none →
      parseSitemap env (fuel + 1) url = some (([], []), [NetOp.getReq url])) ∧
    (env.get url = FetchResult.doc d → d.sitemapindex = none → ∀ es,
      d.urlset = some es → mapLocs es = none →
      parseSitemap env (fuel + 1) url = some (([], []), [NetOp.getReq url])) := by
  refine ⟨fun h => ?_, fun h h1 h2 => ?_, fun h es h1 h2 => ?_, fun h h1 es h2 h3 => ?_⟩
  · simp [parseSitemap, h]
  · simp [parseSitemap, h, h1, urlsetStep, h2]
  · simp [parseSitemap, h, h1, h2]
  · simp [parseSitemap, h, h1, urlsetStep, h2, h3]

def envC10 : Env :=
  { head := fun _ => false
    get := fun u =>
      if u == "https://e.com/empty.xml" then FetchResult.doc ⟨none, none⟩
      else if u == "https://e.com/badidx.xml" then FetchResult.doc ⟨some [⟨[]⟩], none⟩
      else if u == "https://e.com/badset.xml" then FetchResult.doc ⟨none, some [⟨[]⟩]⟩
      else FetchResult.failure
    parseOrigin := fun _ => none }

theorem parseSitemap_resolves_witness :
    parseSitemap envC10 (0 + 1) "https://e.com/fail.xml" =
      some (([], []), [NetOp.getReq "https://e.com/fail.xml"]) ∧
    parseSitemap envC10 (0 + 1) "https://e.com/empty.xml" =
      some (([], []), [NetOp.getReq "https://e.com/empty.xml"]) ∧
    parseSitemap envC10 (0 + 1) "https://e.com/badidx.xml" =
      some (([], []), [NetOp.getReq "https://e.com/badidx.xml"]) ∧
    parseSitemap envC10 (0 + 1) "https://e.com/badset.xml" =
      some (([], []), [NetOp.getReq "https://e.com/badset.xml"]) :=
  ⟨(parseSitemap_resolves envC10 0 "https://e.com/fail.xml" ⟨none, none⟩).1 (by rfl),
   (parseSitemap_resolves envC10 0 "https://e.com/empty.xml" ⟨none, none⟩).2.1
      (by rfl) rfl rfl,
   (parseSitemap_resolves envC10 0 "https://e.com/badidx.xml"
      ⟨some [⟨[]⟩], none⟩).2.2.1 (by rfl) [⟨[]⟩] rfl (by rfl),
   (parseSitemap_resolves envC10 0 "https://e.com/badset.xml"
      ⟨none, some [⟨[]⟩]⟩).2.2.2 (by rfl) rfl [⟨[]⟩] rfl (by rfl)⟩

/-- Claim C6: when every candidate path fails its existence check,
`findMainSitemap` returns the not-found signal `null` (no error), the only
requests performed are the five HEAD probes — no GET is ever issued — and
`getLinks` returns the empty list; and whenever a sitemap is found,
`getLinks` returns exactly the flattened content-URL list of the walk,
dropping the sub-sitemap list. -/
theorem getLinks_not_found (env : Env) (fuel : Nat) (domain origin : String)
    (ho : env.parseOrigin (baseUrlOf domain) = some origin)
    (hfail : ∀ p ∈ sitemapPaths, env.head (origin ++ p) = false) :
    (findMainSitemap env domain).fst = Except.ok none ∧
    getLinks env fuel domain =
      some (Except.ok [], sitemapPaths.map fun p => NetOp.headReq (origin ++ p)) ∧
    (∀ u, NetOp.getReq u ∉ sitemapPaths.map fun p => NetOp.headReq (origin ++ p)) ∧
    (∀ (env2 : Env) (fuel2 : Nat) (dom2 url : String) (subs urls : List String)
        (log2 plog : List NetOp),
      findMainSitemap env2 dom2 = (Except.ok (some url), log2) →
      parseSitemap env2 fuel2 url = some ((subs, urls), plog) →
      getLinks env2 fuel2 dom2 = some (Except.ok urls, log2 ++ plog)) := by
  have ht := tryPaths_all_fail env origin sitemapPaths hfail
  have hf : findMainSitemap env domain =
      (Except.ok none, sitemapPaths.map fun p => NetOp.headReq (origin ++ p)) := by
    simp [findMainSitemap, ho, ht]
  refine ⟨by simp [hf], by simp [getLinks, hf], ?_, ?_⟩
  · intro u hu
    simp only [List.mem_map] at hu
    rcases hu with ⟨p, _, hp⟩
    cases hp
  · intro env2 fuel2 dom2 url subs urls log2 plog h1 h2
    simp [getLinks, h1, h2]

def envC6 : Env :=
  { head := fun _ => false
    get := fun _ => FetchResult.failure
    parseOrigin := fun s =>
      if s == "https://miss.com" then some "https://miss.com" else none }

def envC6f : Env :=
  { head := fun u => u == "https://f.com/sitemap.xml"
    get := fun u =>
      if u == "https://f.com/sitemap.xml" then
        FetchResult.doc ⟨none, some [⟨["https://f.com/p1"]⟩]⟩
      else FetchResult.failure
    parseOrigin := fun s => if s == "https://f.com" then some "https://f.com" else none }

theorem getLinks_not_found_witness :
    (findMainSitemap envC6 "miss.com").fst = Except.ok none ∧
    getLinks envC6 1 "miss.com" =
      some (Except.ok [], sitemapPaths.map fun p => NetOp.headReq ("https://miss.com" ++ p)) ∧
    getLinks envC6f 1 "f.com" =
      some (Except.ok ["https://f.com/p1"],
        [NetOp.headReq "https://f.com/sitemap.xml"] ++
          [NetOp.getReq "https://f.com/sitemap.xml"]) := by
  have h := getLinks_not_found envC6 1 "miss.com" "https://miss.com" (by rfl) (by decide)
  exact ⟨h.1, h.2.1,
    h.2.2.2 envC6f 1 "f.com" "https://f.com/sitemap.xml" []
      ["https://f.com/p1"] [NetOp.headReq "https://f.com/sitemap.xml"]
      [NetOp.getReq "https://f.com/sitemap.xml"] (by rfl) (by rfl)⟩

/-- Claim C9: whenever the URL constructor rejects the computed base URL —
in particular for strings beginning with the four characters `http` that
form no valid URL, which are used as-is because the `https://` prefix is
only added when the string does not start with `http` — `findMainSitemap`
throws (its promise rejects) before any network request, and the exception
escapes `getLinks` too. -/
theorem findMainSitemap_invalid_url_throws (env : Env) (fuel : Nat) (domain : String)
    (h : env.parseOrigin (baseUrlOf domain) = none) :
    findMainSitemap env domain = (Except.error (), []) ∧
    getLinks env fuel domain = some (Except.error (), []) := by
  have h1 : findMainSitemap env domain = (Except.error (), []) := by
    simp [findMainSitemap, h]
  exact ⟨h1, by simp [getLinks, h1]⟩

def envC9 : Env :=
  { head := fun _ => false
    get := fun _ => FetchResult.failure
    parseOrigin := fun _ => none }

theorem findMainSitemap_invalid_url_throws_witness :
    jsStartsWith "http" "httpx" = true ∧
    baseUrlOf "httpx" = "httpx" ∧
    findMainSitemap envC9 "httpx" = (Except.error (), []) ∧
    getLinks envC9 1 "httpx" = some (Except.error (), []) := by
  have h := findMainSitemap_invalid_url_throws envC9 1 "httpx" (by rfl)
  exact ⟨rfl, rfl, h.1, h.2⟩

def loopUrl : String := "https://loop.test/sitemap.xml"

/-- A world in which the sitemap at `loopUrl` is an index whose single entry
is `loopUrl` itself: a directly self-referential sitemap index. -/
def selfEnv : Env :=
  { head := fun _ => true
    get := fun _ => FetchResult.doc ⟨some [⟨[loopUrl]⟩], none⟩
    parseOrigin := fun _ => none }

theorem selfEnv_loop : ∀ fuel, parseSitemap selfEnv fuel loopUrl = none := by
  intro fuel
  induction fuel with
  | zero => rfl
  | succ n ih =>
    have hg : selfEnv.get loopUrl = FetchResult.doc ⟨some [⟨[loopUrl]⟩], none⟩ := rfl
    simp [parseSitemap, hg, mapLocs, walkChildren, ih]

/-- Claim C7 counterexample: the walk is not guarded.  On a sitemap index
that directly references itself, `parseSitemap` completes within no
recursion depth at all — the recursion is infinite, refuting the claim that
a depth bound or seen-URL set makes the walker total on such inputs. -/
theorem parseSitemap_self_reference_diverges : ¬ walkTerminates selfEnv loopUrl := by
  rintro ⟨fuel, h⟩
  rw [selfEnv_loop fuel] at h
  simp at h

def urlA : String := "https://cycle.test/a.xml"

def urlB : String := "https://cycle.test/b.xml"

/-- A world with an indirect cycle: the index at `urlA` references `urlB`
and the index at `urlB` references `urlA`. -/
def cycleEnv : Env :=
  { head := fun _ => true
    get := fun u =>
      if u == urlB then FetchResult.doc ⟨some [⟨[urlA]⟩], none⟩
      else FetchResult.doc ⟨some [⟨[urlB]⟩], none⟩
    parseOrigin := fun _ => none }

theorem cycleEnv_loop : ∀ fuel,
    parseSitemap cycleEnv fuel urlA = none ∧ parseSitemap cycleEnv fuel urlB = none := by
  intro fuel
  induction fuel with
  | zero => exact ⟨rfl, rfl⟩
  | succ n ih =>
    have hA : cycleEnv.get urlA = FetchResult.doc ⟨some [⟨[urlB]⟩], none⟩ := by
      simp [cycleEnv, urlA, urlB]
    have hB : cycleEnv.get urlB = FetchResult.doc ⟨some [⟨[urlA]⟩], none⟩ := by
      simp [cycleEnv]
    exact ⟨by simp [parseSitemap, hA, mapLocs, walkChildren, ih.2],
           by simp [parseSitemap, hB, mapLocs, walkChildren, ih.1]⟩

/-- Claim C7 amended: the recursive walk of `parseSitemap` has no depth or
seen-URL guard, so it is not terminating on self-referential inputs: on a
sitemap index that indirectly references itself (A references B, B
references A) the walk completes within no recursion depth, from either
entry point. -/
theorem parseSitemap_unguarded_cycle_diverges :
    ¬ walkTerminates cycleEnv urlA ∧ ¬ walkTerminates cycleEnv urlB := by
  constructor <;> rintro ⟨fuel, h⟩
  · rw [(cycleEnv_loop fuel).1] at h
    simp at h
  · rw [(cycleEnv_loop fuel).2] at h
    simp at h

def envC8 : Env :=
  { head := fun _ => false
    get := fun _ => FetchResult.failure
    parseOrigin := fun s =>
      if jsStartsWith "https://" s then some "https://stub.test" else none }

/-- Claim C8 counterexample: the input "httpx" does not begin with an HTTP(S)
scheme, yet `findMainSitemap` does not prepend `https://` — the code tests
only `startsWith('http')` — so the base URL stays "httpx", the URL
constructor throws and no origin is ever extracted: the call rejects with an
empty request log.  Had "https://" been prepended as the claim states, this
world's URL parser would have produced an origin and the candidate probes
would have run. -/
theorem findMainSitemap_scheme_cex :
    beginsWithHttpScheme "httpx" = false ∧
    baseUrlOf "httpx" = "httpx" ∧
    findMainSitemap envC8 "httpx" = (Except.error (), []) ∧
    envC8.parseOrigin ("https://" ++ "httpx") = some "https://stub.test" :=
  ⟨rfl, rfl, by rfl, rfl⟩

/-- Claim C8 amended: for every input domain string that does not begin with
the four characters `http` (rather than: with an HTTP(S) scheme),
`findMainSitemap` prepends `https://` before use, then extracts the origin
of the result, and every existence check it performs is a HEAD request
against origin + candidate path for one of the five candidates. -/
theorem findMainSitemap_prefix_amended (env : Env) (domain origin : String)
    (h : jsStartsWith "http" domain = false)
    (ho : env.parseOrigin ("https://" ++ domain) = some origin) :
    baseUrlOf domain = "https://" ++ domain ∧
    (findMainSitemap env domain).fst = Except.ok (tryPaths env origin sitemapPaths).fst ∧
    ∀ op ∈ (findMainSitemap env domain).snd, ∃ p, p ∈ sitemapPaths ∧
      op = NetOp.headReq (origin ++ p) := by
  have hb : baseUrlOf domain = "https://" ++ domain := by
    simp [baseUrlOf, h]
  refine ⟨hb, by simp [findMainSitemap, hb, ho], ?_⟩
  intro op hop
  apply tryPaths_log_mem env origin sitemapPaths op
  simpa [findMainSitemap, hb, ho] using hop

def envC8w : Env :=
  { head := fun _ => false
    get := fun _ => FetchResult.failure
    parseOrigin := fun s =>
      if s == "https://example.org" then some "https://example.org" else none }

theorem findMainSitemap_prefix_amended_witness :
    jsStartsWith "http" "example.org" = false ∧
    baseUrlOf "example.org" = "https://" ++ "example.org" ∧
    (findMainSitemap envC8w "example.org").fst =
      Except.ok (tryPaths envC8w "https://example.org" sitemapPaths).fst := by
  have h := findMainSitemap_prefix_amended envC8w "example.org" "https://example.org"
    (by rfl) (by rfl)
  exact ⟨rfl, h.1, h.2.1⟩

def envC3 : Env :=
  { head := fun u => u == "https://cli.test/sitemap.xml"
    get := fun _ => FetchResult.failure
    parseOrigin := fun s =>
      if s == "https://cli.test" then some "https://cli.test" else none }

/-- Claim C3 counterexample: invoked on domain "cli.test" with the
unrecognized mode flag "--bogus", the CLI does print a usage error and exit
non-zero, but only after network activity: the request log already holds a
HEAD probe and a GET request when the invalid-argument exit is reached. -/
theorem cliMain_invalid_flag_network_cex :
    cliMain envC3 1 (some "cli.test") (some "--bogus") =
      some (CliOutcome.invalidArg,
        [NetOp.headReq "https://cli.test/sitemap.xml",
         NetOp.getReq "https://cli.test/sitemap.xml"]) := by rfl

/-- Claim C3 amended: with a missing (or empty) domain or mode argument the
CLI exits non-zero with a usage error before any network activity; with both
arguments present and an unrecognized mode flag it also terminates on a
non-zero-exit or crash path — invalid-argument usage error, not-found exit,
or a thrown error — but only after the sitemap search (and, when a sitemap
is found, the walk), so network requests do occur first. -/
theorem cliMain_usage_error_amended (env : Env) (fuel : Nat) (d a : Option String) :
    ((truthy d = false ∨ truthy a = false) →
      cliMain env fuel d a = some (CliOutcome.usageError, [])) ∧
    (truthy d = true → truthy a = true →
      a.getD "" ≠ "--main" → a.getD "" ≠ "--subs" → a.getD "" ≠ "--urls" →
      ∀ out log, cliMain env fuel d a = some (out, log) →
        out = CliOutcome.invalidArg ∨ out = CliOutcome.exitNotFound ∨
          out = CliOutcome.crash) := by
  constructor
  · rintro (h | h) <;> simp [cliMain, h]
  · intro hd ha h1 h2 h3 out log heq
    have e1 : (a.getD "" == "--main") = false := beq_eq_false_iff_ne.mpr h1
    have e2 : (a.getD "" == "--subs") = false := beq_eq_false_iff_ne.mpr h2
    have e3 : (a.getD "" == "--urls") = false := beq_eq_false_iff_ne.mpr h3
    simp only [cliMain, hd, ha, e1, e2, e3, Bool.not_true, Bool.or_self,
      Bool.false_eq_true, if_false] at heq
    rcases hf : findMainSitemap env (d.getD "") with ⟨res, lg⟩
    rw [hf] at heq
    cases res with
    | error e =>
      simp only [Option.some.injEq, Prod.mk.injEq] at heq
      exact Or.inr (Or.inr heq.1.symm)
    | ok o =>
      cases o with
      | none =>
        simp only [Option.some.injEq, Prod.mk.injEq] at heq
        exact Or.inr (Or.inl heq.1.symm)
      | some mainUrl =>
        dsimp only at heq
        rcases hp : parseSitemap env fuel mainUrl with _ | ⟨r, plog⟩
        · rw [hp] at heq
          simp at heq
        · rw [hp] at heq
          simp only [Option.some.injEq, Prod.mk.injEq] at heq
          exact Or.inl heq.1.symm

theorem cliMain_usage_error_amended_witness :
    cliMain envC3 1 none (some "--urls") = some (CliOutcome.usageError, []) ∧
    (CliOutcome.invalidArg = CliOutcome.invalidArg ∨
      CliOutcome.invalidArg = CliOutcome.exitNotFound ∨
      CliOutcome.invalidArg = CliOutcome.crash) :=
  ⟨(cliMain_usage_error_amended envC3 1 none (some "--urls")).1 (Or.inl rfl),
   (cliMain_usage_error_amended envC3 1 (some "cli.test") (some "--bogus")).2
     rfl rfl (by decide) (by decide) (by decide) CliOutcome.invalidArg
     [NetOp.headReq "https://cli.test/sitemap.xml",
      NetOp.getReq "https://cli.test/sitemap.xml"] (by rfl)⟩

end SitemapScan
